import Mathlib

/-!
# Verification of the howfuckedistheinternet.com monitoring engine

Shallow embedding of `src/main.py`: the bounded history store, the metric
detectors (BGP origins, BGP prefixes-per-ASN, DFZ size, RPKI total/invalid
ROA, RIPE Atlas probe connectivity) and the weighted aggregator/classifier.

Python dictionaries are modelled as association lists with insertion-order
semantics (updating an existing key keeps its position, a new key is
appended), matching CPython dict iteration order.  Python's float
arithmetic is modelled with exact rationals (`ℚ`); `int(x)` on a
non-negative quotient is truncation, modelled by natural-number division;
`round` is round-half-to-even.  Python code that can raise
`ZeroDivisionError` (or `IndexError`) without a handler is modelled with
`Option`, `none` standing for the raised exception.
-/

set_option maxHeartbeats 1000000

namespace HowFucked

/-- Constant `max_history = 24` from `main.py`: bound on each rolling window. -/
def max_history : ℕ := 24

/-- Constant `bgp_prefix_threshold = 85` from `main.py`. -/
def bgp_prefix_threshold : ℤ := 85

/-- Constant `dfz_threshold = 1` from `main.py`. -/
def dfz_threshold : ℚ := 1

/-- Constant `atlas_probe_threshold = 10` from `main.py`. -/
def atlas_probe_threshold : ℚ := 10

/-- Constant `total_roa_threshold = 90` from `main.py`. -/
def total_roa_threshold : ℚ := 90

/-- A per-key history store: Python dict from key to list of samples,
newest sample first (list index 0). -/
abbrev HistStore (K : Type) := List (K × List ℕ)

/-- Python `h[k]` / `k in h` on a dict, as first (unique) matching entry. -/
def lookupKey {K : Type} [DecidableEq K] (h : HistStore K) (k : K) : Option (List ℕ) :=
  (h.find? (fun kw => decide (kw.1 = k))).map Prod.snd

/-- Python `h[k] = w` on a dict: replace in place if the key is present,
else append (insertion order). -/
def setKey {K : Type} [DecidableEq K] (h : HistStore K) (k : K) (w : List ℕ) : HistStore K :=
  if h.any (fun kw => decide (kw.1 = k)) then
    h.map (fun kw => if kw.1 = k then (k, w) else kw)
  else h ++ [(k, w)]

/-- Window push `w.insert(0, v)` followed by `if len(w) > max_history: w.pop()`
(lines 185-187, 224-226, 316-318, 320-322 of `main.py`). -/
def pushWindow (w : List ℕ) (v : ℕ) : List ℕ :=
  let w' := v :: w
  if max_history < w'.length then w'.dropLast else w'

/-- One recording into the history store as done by `check_bgp_origins`
(lines 184-189) and `check_bgp_prefixes` (lines 223-228): correct
per-window eviction. -/
def recordKey {K : Type} [DecidableEq K] (h : HistStore K) (k : K) (v : ℕ) : HistStore K :=
  match lookupKey h k with
  | some w => setKey h k (pushWindow w v)
  | none => setKey h k [v]

/-- One recording into the RPKI history stores as done by
`check_rpki_totals` (lines 251-256) and `check_rpki_invalids`
(lines 280-285) of `main.py`.  Faithful to the source, the eviction test
is `len(rpki_total_roa_history) > max_history` — the length of the DICT
(number of repositories), not of the per-repository window. -/
def rpkiRecord {K : Type} [DecidableEq K] (h : HistStore K) (k : K) (v : ℕ) : HistStore K :=
  match lookupKey h k with
  | some w =>
      let w' := v :: w
      setKey h k (if max_history < h.length then w'.dropLast else w')
  | none => setKey h k [v]

/-- Arithmetic mean `sum(w) / len(w)` of a window, over exact rationals.
For the empty window Python raises `ZeroDivisionError`; this total model
returns `0` there, and every use below either guards on `avgQ w = 0`
(mirroring the exception) or carries a nonemptiness invariant. -/
def avgQ (w : List ℕ) : ℚ := (w.sum : ℚ) / (w.length : ℚ)

/-- Round half to even (Python's `round`), on exact rationals. -/
def roundHalfEven (q : ℚ) : ℤ :=
  if q - Int.floor q < 1/2 then Int.floor q
  else if 1/2 < q - Int.floor q then Int.floor q + 1
  else if Int.floor q % 2 = 0 then Int.floor q else Int.floor q + 1

/-- Python `round(q, 1)`: round half to even at one decimal place. -/
def round1 (q : ℚ) : ℚ := (roundHalfEven (q * 10) : ℚ) / 10

/-- The RPKI total-ROA detection step for one repository
(lines 258-268 of `main.py`): `avg = int(sum(totals) / len(totals))`
(integer truncation, here natural floor division, equal to Python's
truncation on non-negative values); `percentage = totals[0] / avg * 100`
with `ZeroDivisionError` handled as `percentage = 100`; emit a reason iff
`100 - percentage > total_roa_threshold`. -/
def rpkiTotalReasonsFor {K : Type} (repo : K) (totals : List ℕ) : List K :=
  let avg : ℕ := totals.sum / totals.length
  let percentage : ℚ := if avg = 0 then 100 else ((totals.headD 0 : ℚ) / (avg : ℚ)) * 100
  if total_roa_threshold < 100 - percentage then [repo] else []

/-- The loop over `rpki_total_roa_history.items()` collecting reasons. -/
def rpkiTotalReasons {K : Type} (h : HistStore K) : List K :=
  h.flatMap (fun kw => rpkiTotalReasonsFor kw.1 kw.2)

/-- Function `check_rpki_totals` (lines 244-270 of `main.py`): record each
repository's total-ROA count with `rpkiRecord`, then scan the whole
history for anomalies. -/
def check_rpki_totals {K : Type} [DecidableEq K] (total_roa : List (K × ℕ))
    (hist : HistStore K) : HistStore K × List K :=
  let hist' := total_roa.foldl (fun h kv => rpkiRecord h kv.1 kv.2) hist
  (hist', rpkiTotalReasons hist')

/-- Recording pass shared by `check_bgp_origins` (lines 182-189) and
`check_bgp_prefixes` (lines 221-228): for each key of the BGP table dict,
record the LENGTH of its entry list (number of origin ASNs per prefix,
resp. number of prefixes per ASN). -/
def recordTable {K A : Type} [DecidableEq K] (table : List (K × List A))
    (hist : HistStore K) : HistStore K :=
  table.foldl (fun h kw => recordKey h kw.1 kw.2.length) hist

/-- A reason emitted by `check_bgp_origins`, tagged by which of the two
conditions produced it and for which prefix. -/
inductive OriginReason (K : Type) where
  | hijack (pfx : K)
  | withdrawal (pfx : K)
deriving DecidableEq

/-- Line 196 of `main.py`: `origins[0] > avg and avg < 2`.  The window is
nonempty wherever this is used (Python `origins[0]` would raise on an
empty list), so `headD 0` is a faithful reading of `origins[0]`. -/
abbrev hijackCond (w : List ℕ) : Prop := avgQ w < (w.headD 0 : ℚ) ∧ avgQ w < 2

/-- Line 204 of `main.py`: `origins[0] < 2 and avg > 5`. -/
abbrev withdrawCond (w : List ℕ) : Prop := w.headD 0 < 2 ∧ 5 < avgQ w

/-- The body of the detection loop of `check_bgp_origins`
(lines 192-209): at most one reason of each kind per prefix, appended in
source order. -/
def originReasonsFor {K : Type} (pfx : K) (w : List ℕ) : List (OriginReason K) :=
  (if hijackCond w then [OriginReason.hijack pfx] else []) ++
    (if withdrawCond w then [OriginReason.withdrawal pfx] else [])

/-- The detection loop of `check_bgp_origins` over the whole history. -/
def originReasons {K : Type} (h : HistStore K) : List (OriginReason K) :=
  h.flatMap (fun kw => originReasonsFor kw.1 kw.2)

/-- Function `check_bgp_origins` (lines 176-211 of `main.py`): record the latest
origin count per prefix, then scan the WHOLE accumulated history for
anomalies. -/
def check_bgp_origins {K A : Type} [DecidableEq K] (table : List (K × List A))
    (hist : HistStore K) : HistStore K × List (OriginReason K) :=
  let hist' := recordTable table hist
  (hist', originReasons hist')

/-- In an association list whose keys are distinct, a key determines its
value. -/
theorem nodup_keys_eq {K B : Type} {hist : List (K × B)} {k : K} {w1 w2 : B}
    (hnodup : (hist.map Prod.fst).Nodup) (h1 : (k, w1) ∈ hist) (h2 : (k, w2) ∈ hist) :
    w1 = w2 := by
  induction hist with
  | nil => cases h1
  | cons a t ih =>
      simp only [List.map_cons, List.nodup_cons, List.mem_map] at hnodup
      rcases List.mem_cons.mp h1 with h1 | h1 <;> rcases List.mem_cons.mp h2 with h2 | h2
      · rw [← h1] at h2; exact (congrArg Prod.snd h2).symm
      · exact absurd ⟨(k, w2), h2, by simp [← h1]⟩ hnodup.1
      · exact absurd ⟨(k, w1), h1, by simp [← h2]⟩ hnodup.1
      · exact ih hnodup.2 h1 h2

/-- Membership of a hijack reason in one prefix's emitted reasons. -/
theorem hijack_mem_originReasonsFor {K : Type} (k k' : K) (w : List ℕ) :
    OriginReason.hijack k ∈ originReasonsFor k' w ↔ k = k' ∧ hijackCond w := by
  by_cases h1 : hijackCond w <;> by_cases h2 : withdrawCond w <;>
    simp [originReasonsFor, h1, h2] <;> tauto

/-- Membership of a withdrawal reason in one prefix's emitted reasons. -/
theorem withdrawal_mem_originReasonsFor {K : Type} (k k' : K) (w : List ℕ) :
    OriginReason.withdrawal k ∈ originReasonsFor k' w ↔ k = k' ∧ withdrawCond w := by
  by_cases h1 : hijackCond w <;> by_cases h2 : withdrawCond w <;>
    simp [originReasonsFor, h1, h2] <;> tauto

/-- Membership in the origin-reason list characterised per key (keys
distinct, as they are in a Python dict). -/
theorem mem_originReasons {K : Type} {hist : HistStore K} {k : K} {w : List ℕ}
    (hnodup : (hist.map Prod.fst).Nodup) (hmem : (k, w) ∈ hist) :
    (OriginReason.hijack k ∈ originReasons hist ↔ hijackCond w) ∧
      (OriginReason.withdrawal k ∈ originReasons hist ↔ withdrawCond w) := by
  constructor
  · constructor
    · intro hr
      rcases List.mem_flatMap.mp hr with ⟨kw, hkw, hrin⟩
      rcases (hijack_mem_originReasonsFor k kw.1 kw.2).mp hrin with ⟨hk, hc⟩
      have hW : w = kw.2 := nodup_keys_eq hnodup hmem (by rw [hk, Prod.mk.eta]; exact hkw)
      rw [hW]; exact hc
    · intro hc
      refine List.mem_flatMap.mpr ⟨(k, w), hmem, ?_⟩
      exact (hijack_mem_originReasonsFor k k w).mpr ⟨rfl, hc⟩
  · constructor
    · intro hr
      rcases List.mem_flatMap.mp hr with ⟨kw, hkw, hrin⟩
      rcases (withdrawal_mem_originReasonsFor k kw.1 kw.2).mp hrin with ⟨hk, hc⟩
      have hW : w = kw.2 := nodup_keys_eq hnodup hmem (by rw [hk, Prod.mk.eta]; exact hkw)
      rw [hW]; exact hc
    · intro hc
      refine List.mem_flatMap.mpr ⟨(k, w), hmem, ?_⟩
      exact (withdrawal_mem_originReasonsFor k k w).mpr ⟨rfl, hc⟩

/-- One prefix emits no origin reason iff neither condition holds. -/
theorem originReasonsFor_eq_nil {K : Type} (k : K) (w : List ℕ) :
    originReasonsFor k w = [] ↔ ¬ hijackCond w ∧ ¬ withdrawCond w := by
  by_cases h1 : hijackCond w <;> by_cases h2 : withdrawCond w <;>
    simp [originReasonsFor, h1, h2]

/-- C3 (counterexample): `check_bgp_origins` on an EMPTY prefix mapping
does not always return an empty reason list — with accumulated history
`{"p": [3, 1, 1]}` (average 5/3 < 2, latest 3 > 5/3) it re-emits the
hijack-suspicion reason for "p", refuting "returns an empty reason list
regardless of the accumulated history". -/
theorem c3_empty_input_reasons_counterexample :
    (check_bgp_origins ([] : List (String × List Unit)) [("p", [3, 1, 1])]).2
        = [OriginReason.hijack "p"]
      ∧ (check_bgp_origins ([] : List (String × List Unit)) [("p", [3, 1, 1])]).2 ≠ [] := by
  have h1 : hijackCond [3, 1, 1] := by norm_num [hijackCond, avgQ]
  have h2 : ¬ withdrawCond [3, 1, 1] := by simp [withdrawCond]
  have he : (check_bgp_origins ([] : List (String × List Unit)) [("p", [3, 1, 1])]).2
      = [OriginReason.hijack "p"] := by
    show originReasons [("p", [3, 1, 1])] = _
    rw [originReasons, List.flatMap_cons, List.flatMap_nil, List.append_nil,
      originReasonsFor, if_pos h1, if_neg h2, List.append_nil]
  exact ⟨he, by rw [he]; exact List.cons_ne_nil _ _⟩

/-- C3 (amended): with an empty input mapping the cycle is not aborted and
nothing is recorded (the history is unchanged), but the detection loop
still scans the accumulated history: the reason list is empty iff no
tracked window satisfies either suspicion condition (in particular it is
empty whenever the history is empty). -/
theorem c3_empty_input_skips_recording (hist : HistStore String) :
    (check_bgp_origins ([] : List (String × List Unit)) hist).1 = hist ∧
      ((check_bgp_origins ([] : List (String × List Unit)) hist).2 = [] ↔
        ∀ kw ∈ hist, ¬ hijackCond kw.2 ∧ ¬ withdrawCond kw.2) := by
  refine ⟨rfl, ?_⟩
  show originReasons hist = [] ↔ _
  rw [originReasons, List.flatMap_eq_nil_iff]
  exact ⟨fun h kw hkw => (originReasonsFor_eq_nil kw.1 kw.2).mp (h kw hkw),
    fun h kw hkw => (originReasonsFor_eq_nil kw.1 kw.2).mpr (h kw hkw)⟩

/-- C5: after the cycle's origin counts are recorded, a hijack-suspicion
reason is emitted for a tracked prefix exactly when `latest > avg` and
`avg < 2`, and a withdrawal-suspicion reason exactly when `latest < 2` and
`avg > 5`, where `latest` is the front of the prefix's window and `avg`
its arithmetic mean (newest sample included). -/
theorem c5_origin_detector_conditions {K A : Type} [DecidableEq K]
    (table : List (K × List A)) (hist : HistStore K) (k : K) (w : List ℕ)
    (hmem : (k, w) ∈ (check_bgp_origins table hist).1)
    (hnodup : (((check_bgp_origins table hist).1).map Prod.fst).Nodup) :
    (OriginReason.hijack k ∈ (check_bgp_origins table hist).2 ↔
        avgQ w < (w.headD 0 : ℚ) ∧ avgQ w < 2) ∧
      (OriginReason.withdrawal k ∈ (check_bgp_origins table hist).2 ↔
        w.headD 0 < 2 ∧ 5 < avgQ w) :=
  mem_originReasons hnodup hmem

/-- Witness for C5 at a concrete input: table `{"p": 3 routes}` recorded
onto history `{"p": [1, 1]}` gives window `[3, 1, 1]`, and the hijack
reason for "p" is emitted (3 > 5/3 and 5/3 < 2) while no withdrawal
reason is. -/
theorem c5_witness :
    (("p", [3, 1, 1]) ∈ (check_bgp_origins [("p", [(), (), ()])] [("p", [1, 1])]).1) ∧
      ((((check_bgp_origins [("p", [(), (), ()])] [("p", [1, 1])]).1).map Prod.fst).Nodup) ∧
      ((OriginReason.hijack "p" ∈ (check_bgp_origins [("p", [(), (), ()])] [("p", [1, 1])]).2 ↔
          avgQ [3, 1, 1] < (([3, 1, 1] : List ℕ).headD 0 : ℚ) ∧ avgQ [3, 1, 1] < 2) ∧
        (OriginReason.withdrawal "p" ∈ (check_bgp_origins [("p", [(), (), ()])] [("p", [1, 1])]).2 ↔
          ([3, 1, 1] : List ℕ).headD 0 < 2 ∧ 5 < avgQ [3, 1, 1])) :=
  ⟨by decide, by decide,
    c5_origin_detector_conditions [("p", [(), (), ()])] [("p", [1, 1])] "p" [3, 1, 1]
      (by decide) (by decide)⟩

/-- Membership of one repository's contribution to the total-ROA reasons. -/
theorem rpkiTotalReasonsFor_mem {K : Type} (k k' : K) (totals : List ℕ) :
    k ∈ rpkiTotalReasonsFor k' totals ↔
      k = k' ∧ total_roa_threshold < 100 -
        (if totals.sum / totals.length = 0 then (100 : ℚ)
          else ((totals.headD 0 : ℚ) / ((totals.sum / totals.length : ℕ) : ℚ)) * 100) := by
  simp only [rpkiTotalReasonsFor]
  split_ifs with h <;> simp_all

/-- Membership in the total-ROA reason list characterised per repository. -/
theorem mem_rpkiTotalReasons {K : Type} {hist : HistStore K} {repo : K} {totals : List ℕ}
    (hnodup : (hist.map Prod.fst).Nodup) (hmem : (repo, totals) ∈ hist) :
    repo ∈ rpkiTotalReasons hist ↔
      total_roa_threshold < 100 -
        (if totals.sum / totals.length = 0 then (100 : ℚ)
          else ((totals.headD 0 : ℚ) / ((totals.sum / totals.length : ℕ) : ℚ)) * 100) := by
  constructor
  · intro hr
    rcases List.mem_flatMap.mp hr with ⟨kw, hkw, hrin⟩
    rcases (rpkiTotalReasonsFor_mem repo kw.1 kw.2).mp hrin with ⟨hk, hc⟩
    have hW : totals = kw.2 := nodup_keys_eq hnodup hmem (by rw [hk, Prod.mk.eta]; exact hkw)
    rw [hW]; exact hc
  · intro hc
    exact List.mem_flatMap.mpr
      ⟨(repo, totals), hmem, (rpkiTotalReasonsFor_mem repo repo totals).mpr ⟨rfl, hc⟩⟩

/-- C7: in the RPKI total-ROA detector the per-repository average is the
integer truncation of `sum/len`, a zero average makes the percentage 100
(no anomaly), and a reason is emitted for a tracked repository exactly
when `100 - pct > 90` with `pct = latest/avg * 100`
(`total_roa_threshold = 90` by definition). -/
theorem c7_rpki_totals_detection {K : Type} [DecidableEq K]
    (total_roa : List (K × ℕ)) (hist : HistStore K) (repo : K) (totals : List ℕ)
    (hmem : (repo, totals) ∈ (check_rpki_totals total_roa hist).1)
    (hnodup : (((check_rpki_totals total_roa hist).1).map Prod.fst).Nodup) :
    repo ∈ (check_rpki_totals total_roa hist).2 ↔
      (90 : ℚ) < 100 -
        (if totals.sum / totals.length = 0 then (100 : ℚ)
          else ((totals.headD 0 : ℚ) / ((totals.sum / totals.length : ℕ) : ℚ)) * 100) :=
  mem_rpkiTotalReasons hnodup hmem

/-- Witness for C7 at a concrete input (the spec's ROA-outage scenario):
repository "r" with history `[1000, 1000, 1000]` and new total 50 has
window `[50, 1000, 1000, 1000]`, truncated average 762, percentage
5000/762 ≈ 6.6, and 100 - 6.6 > 90, so the reason is emitted. -/
theorem c7_witness :
    (("r", [50, 1000, 1000, 1000]) ∈
        (check_rpki_totals [("r", 50)] [("r", [1000, 1000, 1000])]).1) ∧
      ((((check_rpki_totals [("r", 50)] [("r", [1000, 1000, 1000])]).1).map Prod.fst).Nodup) ∧
      ("r" ∈ (check_rpki_totals [("r", 50)] [("r", [1000, 1000, 1000])]).2 ↔
        (90 : ℚ) < 100 -
          (if ([50, 1000, 1000, 1000] : List ℕ).sum / ([50, 1000, 1000, 1000] : List ℕ).length = 0
            then (100 : ℚ)
            else ((([50, 1000, 1000, 1000] : List ℕ).headD 0 : ℚ) /
              ((([50, 1000, 1000, 1000] : List ℕ).sum /
                ([50, 1000, 1000, 1000] : List ℕ).length : ℕ) : ℚ)) * 100)) :=
  ⟨by decide, by decide,
    c7_rpki_totals_detection [("r", 50)] [("r", [1000, 1000, 1000])] "r" [50, 1000, 1000, 1000]
      (by decide) (by decide)⟩

/-- The detection step of `check_bgp_prefixes` for one ASN (lines 231-239
of `main.py`): `avg = sum/len`;
`percentage = 100 - int(round(prefixes[0] / avg * 100, 0))` (Python
`round` is half-to-even); emit a reason iff
`percentage > bgp_prefix_threshold`.  The division `prefixes[0] / avg` is
UNGUARDED in the source: a zero average raises `ZeroDivisionError`,
modelled by `none` (for an empty window `sum(w)/len(w)` raises already;
`avgQ` is then also `0`, so `none` covers that case too). -/
def prefixReasonsFor {K : Type} (asn : K) (w : List ℕ) : Option (List K) :=
  if avgQ w = 0 then none
  else
    let percentage : ℤ := 100 - roundHalfEven ((w.headD 0 : ℚ) / avgQ w * 100)
    if bgp_prefix_threshold < percentage then some [asn] else some []

/-- Function `check_bgp_prefixes` (lines 214-241 of `main.py`): record the latest
prefix count per ASN, then scan the whole history; `none` models the
uncaught `ZeroDivisionError` aborting the cycle. -/
def check_bgp_prefixes {K A : Type} [DecidableEq K] (table : List (K × List A))
    (hist : HistStore K) : Option (HistStore K × List K) := do
  let hist' := recordTable table hist
  let rs ← hist'.foldlM (fun acc kw => do
      let r ← prefixReasonsFor kw.1 kw.2
      pure (acc ++ r)) ([] : List K)
  pure (hist', rs)

/-- A window that is nonempty and whose samples are all at least 1. -/
abbrev goodWindow (w : List ℕ) : Prop := w ≠ [] ∧ ∀ v ∈ w, 1 ≤ v

/-- Pushing preserves `goodWindow` when the pushed value is positive. -/
theorem goodWindow_pushWindow {w : List ℕ} {v : ℕ} (hw : ∀ x ∈ w, 1 ≤ x) (hv : 1 ≤ v) :
    goodWindow (pushWindow w v) := by
  simp only [pushWindow]
  split_ifs with hlen
  · constructor
    · have : (v :: w).dropLast.length = w.length := by simp
      intro hnil
      rw [hnil] at this
      simp only [List.length_nil] at this
      simp [max_history, ← this] at hlen
    · intro x hx
      have hx' : x ∈ v :: w := (List.dropLast_sublist (v :: w)).mem hx
      rcases List.mem_cons.mp hx' with h | h
      · subst h; exact hv
      · exact hw x h
  · exact ⟨List.cons_ne_nil v w, fun x hx => by
      rcases List.mem_cons.mp hx with h | h
      · subst h; exact hv
      · exact hw x h⟩

/-- Every entry of `setKey h k w` either carries the new window `w` or was
already in `h`. -/
theorem mem_setKey {K : Type} [DecidableEq K] {h : HistStore K} {k : K} {w : List ℕ}
    {kw : K × List ℕ} (hmem : kw ∈ setKey h k w) : kw.2 = w ∨ kw ∈ h := by
  unfold setKey at hmem
  split_ifs at hmem with hc
  · rcases List.mem_map.mp hmem with ⟨a, ha, hEq⟩
    by_cases hak : a.1 = k
    · rw [if_pos hak] at hEq; left; rw [← hEq]
    · rw [if_neg hak] at hEq; right; rw [← hEq]; exact ha
  · rcases List.mem_append.mp hmem with hmem | hmem
    · right; exact hmem
    · left; rw [List.mem_singleton.mp hmem]

/-- A successful lookup returns a window stored in the history. -/
theorem lookupKey_mem {K : Type} [DecidableEq K] {h : HistStore K} {k : K} {w : List ℕ}
    (hl : lookupKey h k = some w) : ∃ k', (k', w) ∈ h := by
  unfold lookupKey at hl
  rcases Option.map_eq_some'.mp hl with ⟨kw, hfind, hsnd⟩
  exact ⟨kw.1, by rw [← hsnd, Prod.mk.eta]; exact List.mem_of_find?_eq_some hfind⟩

/-- Recording one key preserves the all-windows-good invariant when the recorded
value is positive. -/
theorem recordKey_goodWindow {K : Type} [DecidableEq K] {h : HistStore K} {k : K} {v : ℕ}
    (hinv : ∀ kw ∈ h, goodWindow kw.2) (hv : 1 ≤ v) :
    ∀ kw ∈ recordKey h k v, goodWindow kw.2 := by
  intro kw hkw
  unfold recordKey at hkw
  cases hfind : lookupKey h k with
  | some w =>
      rw [hfind] at hkw
      rcases mem_setKey hkw with hEq | hmem
      · rw [hEq]
        rcases lookupKey_mem hfind with ⟨k', hk'⟩
        exact goodWindow_pushWindow (hinv (k', w) hk').2 hv
      · exact hinv _ hmem
  | none =>
      rw [hfind] at hkw
      rcases mem_setKey hkw with hEq | hmem
      · rw [hEq]
        exact ⟨List.cons_ne_nil v [], fun x hx => by
          rw [List.mem_singleton.mp hx]; exact hv⟩
      · exact hinv _ hmem

/-- Recording a whole table preserves the all-windows-good invariant when every
table entry is a nonempty list (its recorded length is then positive). -/
theorem recordTable_goodWindow {K A : Type} [DecidableEq K]
    {table : List (K × List A)} {hist : HistStore K}
    (htab : ∀ kw ∈ table, kw.2 ≠ []) (hinv : ∀ kw ∈ hist, goodWindow kw.2) :
    ∀ kw ∈ recordTable table hist, goodWindow kw.2 := by
  induction table generalizing hist with
  | nil => simpa [recordTable] using hinv
  | cons a t ih =>
      have hstep : ∀ kw ∈ recordKey hist a.1 a.2.length, goodWindow kw.2 :=
        recordKey_goodWindow hinv
          (List.length_pos.mpr (htab a (List.mem_cons_self a t)))
      have := ih (fun kw hkw => htab kw (List.mem_cons_of_mem a hkw)) hstep
      simpa [recordTable, List.foldl_cons] using this

/-- A good window has a strictly positive average. -/
theorem goodWindow_avg_pos {w : List ℕ} (hw : goodWindow w) : 0 < avgQ w := by
  rcases hw with ⟨hne, hall⟩
  have hsum : w.sum ≠ 0 := by
    intro hz
    rcases List.exists_mem_of_ne_nil w hne with ⟨x, hx⟩
    have h1 := hall x hx
    have h2 := (List.sum_eq_zero_iff.mp hz) x hx
    omega
  have hlen : 0 < w.length := List.length_pos.mpr hne
  rw [avgQ]
  apply div_pos
  · exact_mod_cast Nat.pos_of_ne_zero hsum
  · exact_mod_cast hlen

/-- The detection fold of `check_bgp_prefixes` succeeds when no tracked
average is zero. -/
theorem prefixFold_isSome {K : Type} (l : HistStore K)
    (hl : ∀ kw ∈ l, avgQ kw.2 ≠ 0) (acc : List K) :
    (l.foldlM (fun acc kw => do
        let r ← prefixReasonsFor kw.1 kw.2
        pure (acc ++ r)) acc : Option (List K)).isSome := by
  induction l generalizing acc with
  | nil => rfl
  | cons a t ih =>
      have ha : avgQ a.2 ≠ 0 := hl a (List.mem_cons_self a t)
      obtain ⟨r, hr⟩ : ∃ r, prefixReasonsFor a.1 a.2 = some r := by
        simp only [prefixReasonsFor]
        rw [if_neg ha]
        split_ifs <;> exact ⟨_, rfl⟩
      rw [List.foldlM_cons]
      simp only [hr, Option.bind_eq_bind, Option.some_bind, Option.pure_def]
      exact ih (fun kw hkw => hl kw (List.mem_cons_of_mem a hkw)) (acc ++ r)

/-- C9: if every per-ASN entry of the BGP table is nonempty (so every
recorded prefix count, being its length, is at least 1) and every already
tracked window is nonempty with samples at least 1 — the invariant the
recording pass itself maintains — then every rolling average seen by the
prefix-count detector is strictly positive and the unguarded division
`prefixes[0] / avg` never divides by zero: the whole check returns a
result. -/
theorem c9_prefix_division_safe (table : List (ℕ × List Unit)) (hist : HistStore ℕ)
    (htab : ∀ kw ∈ table, kw.2 ≠ [])
    (hinv : ∀ kw ∈ hist, kw.2 ≠ [] ∧ ∀ v ∈ kw.2, 1 ≤ v) :
    (∀ kw ∈ recordTable table hist, 0 < avgQ kw.2) ∧
      (check_bgp_prefixes table hist).isSome := by
  have hgood : ∀ kw ∈ recordTable table hist, goodWindow kw.2 :=
    recordTable_goodWindow htab hinv
  refine ⟨fun kw hkw => goodWindow_avg_pos (hgood kw hkw), ?_⟩
  have hfold := prefixFold_isSome (recordTable table hist)
    (fun kw hkw => ne_of_gt (goodWindow_avg_pos (hgood kw hkw))) []
  rw [Option.isSome_iff_exists] at hfold
  rcases hfold with ⟨rs, hrs⟩
  simp only [check_bgp_prefixes]
  rw [hrs]
  rfl

/-- Witness for C9 at a concrete input: one ASN announcing one prefix,
empty history. -/
theorem c9_witness :
    (∀ kw ∈ ([(1, [()])] : List (ℕ × List Unit)), kw.2 ≠ []) ∧
      (∀ kw ∈ ([] : HistStore ℕ), kw.2 ≠ [] ∧ ∀ v ∈ kw.2, 1 ≤ v) ∧
      ((∀ kw ∈ recordTable ([(1, [()])] : List (ℕ × List Unit)) ([] : HistStore ℕ),
          0 < avgQ kw.2) ∧
        (check_bgp_prefixes ([(1, [()])] : List (ℕ × List Unit)) ([] : HistStore ℕ)).isSome) :=
  ⟨by decide, by decide,
    c9_prefix_division_safe [(1, [()])] [] (by decide) (by decide)⟩

/-- Python `str.find` (used at line 311 of `main.py`): index of the first
occurrence of `pat` in the character list, or -1 when absent. -/
def pyFind (pat : List Char) : List Char → Int
  | [] => if pat.isPrefixOf ([] : List Char) then 0 else -1
  | c :: t =>
      if pat.isPrefixOf (c :: t) then 0
      else
        let r := pyFind pat t
        if r < 0 then -1 else r + 1

/-- Python's containment test `pat in s` (the spec's "contains"): some
suffix of `s` starts with `pat`. -/
def hasSubstr (pat : List Char) : List Char → Bool
  | [] => pat.isPrefixOf ([] : List Char)
  | c :: t => pat.isPrefixOf (c :: t) || hasSubstr pat t

/-- The address-family test of `check_dfz` (line 311 of `main.py`):
`pfx.find('::/') > 0`. -/
def isV6 (pfx : String) : Bool := decide (0 < pyFind "::/".toList pfx.toList)

/-- Index `pyFind` is non-negative exactly when the pattern occurs. -/
theorem pyFind_nonneg_iff (pat : List Char) (l : List Char) :
    0 ≤ pyFind pat l ↔ hasSubstr pat l = true := by
  induction l with
  | nil =>
      by_cases hp : pat.isPrefixOf ([] : List Char) <;>
        simp [pyFind, hasSubstr, hp]
  | cons c t ih =>
      by_cases hp : pat.isPrefixOf (c :: t)
      · simp [pyFind, hasSubstr, hp]
      · simp only [pyFind, hasSubstr, hp, Bool.false_eq_true, if_false, Bool.false_or]
        by_cases hr : pyFind pat t < 0
        · rw [if_pos hr]
          constructor
          · intro h; omega
          · intro h; have := ih.mpr h; omega
        · rw [if_neg hr]
          constructor
          · intro h; exact ih.mp (by omega)
          · intro h; omega

/-- Index `pyFind` is strictly positive exactly when the pattern occurs but not
as a prefix. -/
theorem pyFind_pos_iff (pat : List Char) (l : List Char) :
    0 < pyFind pat l ↔ hasSubstr pat l = true ∧ ¬ pat.isPrefixOf l = true := by
  induction l with
  | nil =>
      by_cases hp : pat.isPrefixOf ([] : List Char) <;>
        simp [pyFind, hasSubstr, hp]
  | cons c t ih =>
      have hnn := pyFind_nonneg_iff pat t
      by_cases hp : pat.isPrefixOf (c :: t)
      · constructor
        · intro h
          rw [show pyFind pat (c :: t) = 0 from by simp [pyFind, hp]] at h
          omega
        · rintro ⟨-, hnp⟩
          exact absurd hp hnp
      · constructor
        · intro h
          simp only [pyFind] at h
          rw [if_neg hp] at h
          refine ⟨?_, hp⟩
          rw [hasSubstr, Bool.or_eq_true]
          right
          by_cases hr : pyFind pat t < 0
          · rw [if_pos hr] at h; omega
          · exact hnn.mp (by omega)
        · rintro ⟨hs, -⟩
          simp only [pyFind]
          rw [if_neg hp]
          rw [hasSubstr, Bool.or_eq_true] at hs
          have hst : hasSubstr pat t = true := by
            rcases hs with hs | hs
            · exact absurd hs hp
            · exact hs
          have hge : 0 ≤ pyFind pat t := hnn.mpr hst
          rw [if_neg (by omega)]
          omega

/-- C4 (amended): the DFZ detector counts a prefix as IPv6 exactly when
`'::/'` occurs at a strictly positive index — that is, when the prefix
contains `'::/'` but does not begin with it.  A prefix beginning with
`'::/'` (such as `"::/0"`) is counted as IPv4. -/
theorem c4_v6_test_characterized (p : String) :
    isV6 p = true ↔
      hasSubstr "::/".toList p.toList = true ∧ ¬ ("::/".toList.isPrefixOf p.toList) = true := by
  rw [isV6, decide_eq_true_iff]
  exact pyFind_pos_iff "::/".toList p.toList

/-- Lines 310-314 of `main.py`: IPv6 side of the partition of the observed
prefix set. -/
def dfzV6Count (pfxs : List String) : ℕ := pfxs.countP (fun p => isV6 p)

/-- Lines 310-314 of `main.py`: IPv4 side (the `else` branch). -/
def dfzV4Count (pfxs : List String) : ℕ := pfxs.countP (fun p => !isV6 p)

/-- C4 (counterexample): `"::/0"` contains `'::/'`, yet the detector's
test `pfx.find('::/') > 0` is false for it (the index is 0), so it is
counted as IPv4 — refuting "counted as IPv6 exactly when its textual
representation contains `'::/'` ... including ones that begin with
`'::/'` such as `\"::/0\"`". -/
theorem c4_v6_prefix_counterexample :
    hasSubstr "::/".toList "::/0".toList = true
      ∧ isV6 "::/0" = false
      ∧ dfzV6Count ["::/0"] = 0
      ∧ dfzV4Count ["::/0"] = 1 := by
  decide

/-- The DFZ history: the fixed two-key dict `{v6: [...], v4: [...]}`. -/
structure DfzHistory where
  v6 : List ℕ
  v4 : List ℕ
deriving DecidableEq

/-- A reason emitted by `check_dfz`, tagged by family and direction. -/
inductive DfzReason where
  | v6_increase
  | v6_decrease
  | v4_increase
  | v4_decrease
deriving DecidableEq

/-- Function `check_dfz` (lines 299-359 of `main.py`): count the observed prefixes
per family, push both counts (unconditionally), then for each family
compute `avg` and `pc = round(latest/avg * 100, 1)` and emit an increase
reason if `pc - 100 > dfz_threshold`, else a decrease reason if
`100 - pc > dfz_threshold`.  The division `latest / avg` is UNGUARDED in
the source; a zero average raises `ZeroDivisionError`, modelled by
`none`. -/
def check_dfz (pfxs : List String) (h : DfzHistory) : Option (DfzHistory × List DfzReason) :=
  let h6 := pushWindow h.v6 (dfzV6Count pfxs)
  let h4 := pushWindow h.v4 (dfzV4Count pfxs)
  if avgQ h6 = 0 then none
  else
    let v6pc := round1 ((h6.headD 0 : ℚ) / avgQ h6 * 100)
    let r6 : List DfzReason :=
      if dfz_threshold < v6pc - 100 then [DfzReason.v6_increase]
      else if dfz_threshold < 100 - v6pc then [DfzReason.v6_decrease]
      else []
    if avgQ h4 = 0 then none
    else
      let v4pc := round1 ((h4.headD 0 : ℚ) / avgQ h4 * 100)
      let r4 : List DfzReason :=
        if dfz_threshold < v4pc - 100 then [DfzReason.v4_increase]
        else if dfz_threshold < 100 - v4pc then [DfzReason.v4_decrease]
        else []
      some (⟨h6, h4⟩, r6 ++ r4)

/-- C10: on the first cycle with no BGP data (empty prefix set, both DFZ
windows empty) both family counts are recorded as 0, the rolling average
is 0, and the unguarded division `latest/avg` fails — `check_dfz` yields
no result (the modelled `ZeroDivisionError`). -/
theorem c10_dfz_first_cycle_division_fails :
    pushWindow ([] : List ℕ) (dfzV6Count []) = [0]
      ∧ pushWindow ([] : List ℕ) (dfzV4Count []) = [0]
      ∧ avgQ [0] = 0
      ∧ check_dfz [] ⟨[], []⟩ = none := by
  have h0 : avgQ [0] = 0 := by simp [avgQ]
  refine ⟨rfl, rfl, h0, ?_⟩
  simp only [check_dfz]
  have hw : pushWindow ([] : List ℕ) (dfzV6Count []) = [0] := rfl
  rw [hw, if_pos h0]

/-- The probe disconnect rate of `check_ripe_atlas_status`
(lines 391-399 of `main.py`; the source calls it `avg`):
`disconnected / (connected + disconnected) * 100`, with the
`ZeroDivisionError` on an empty probe population handled as 0. -/
def atlasRate (connected disconnected : List ℕ) : ℚ :=
  if (connected ++ disconnected).length = 0 then 0
  else ((disconnected.length : ℚ) / ((connected ++ disconnected).length : ℚ)) * 100

/-- Function `check_ripe_atlas_status` (lines 388-406 of `main.py`): the single
reason (modelled as a unit marker) emitted when the rate exceeds
`atlas_probe_threshold`. -/
def check_ripe_atlas_status (connected disconnected : List ℕ) : List Unit :=
  if atlas_probe_threshold < atlasRate connected disconnected then [()] else []

/-- C8: the probe-connectivity check computes
`rate = disconnected / (connected + disconnected) * 100`, returns rate 0
when the denominator is zero (it never fails on empty input), and emits
its reason exactly when `rate > 10` — equivalently, over the integer
counts, when `10 * disconnected > connected + disconnected`. -/
theorem c8_probe_rate (connected disconnected : List ℕ) :
    (atlasRate connected disconnected
        = if connected.length + disconnected.length = 0 then 0
          else ((disconnected.length : ℚ) /
            ((connected.length + disconnected.length : ℕ) : ℚ)) * 100)
      ∧ (check_ripe_atlas_status connected disconnected ≠ []
          ↔ 10 * disconnected.length > connected.length + disconnected.length) := by
  constructor
  · rw [atlasRate, List.length_append]
  · have hne : check_ripe_atlas_status connected disconnected ≠ []
        ↔ atlas_probe_threshold < atlasRate connected disconnected := by
      rw [check_ripe_atlas_status]
      split_ifs with h <;> simp [h]
    rw [hne, atlasRate, List.length_append, atlas_probe_threshold]
    by_cases hT : connected.length + disconnected.length = 0
    · rw [if_pos hT]
      constructor
      · intro h; norm_num at h
      · intro h; omega
    · rw [if_neg hT]
      have hT' : (0 : ℚ) < ((connected.length + disconnected.length : ℕ) : ℚ) := by
        exact_mod_cast Nat.pos_of_ne_zero hT
      rw [div_mul_eq_mul_div, lt_div_iff₀ hT']
      constructor
      · intro h
        have h' : 10 * (connected.length + disconnected.length)
            < disconnected.length * 100 := by exact_mod_cast h
        omega
      · intro h
        have h' : 10 * (connected.length + disconnected.length)
            < disconnected.length * 100 := by omega
        exact_mod_cast h'

/-- The reason categories of `main.py` in the insertion order of the
`fucked_reasons` dict (line 423). -/
inductive Category where
  | origins
  | prefixes
  | dns_root
  | atlas_connected
  | invalid_roa
  | total_roa
  | dfz
deriving DecidableEq

/-- The `weighting` dict of `main.py` (lines 32-33). -/
def weight : Category → ℚ
  | Category.origins => 1/10
  | Category.prefixes => 2/10
  | Category.dns_root => 10
  | Category.atlas_connected => 1
  | Category.invalid_roa => 1
  | Category.total_roa => 5
  | Category.dfz => 1

/-- The number of reasons each category produced in one cycle
(`len(reasons)` per key of `fucked_reasons`). -/
structure ReasonCounts where
  origins : ℕ
  prefixes : ℕ
  dns_root : ℕ
  atlas_connected : ℕ
  invalid_roa : ℕ
  total_roa : ℕ
  dfz : ℕ
deriving DecidableEq

/-- Projection of a cycle's counts at one category. -/
def count (c : ReasonCounts) : Category → ℕ
  | Category.origins => c.origins
  | Category.prefixes => c.prefixes
  | Category.dns_root => c.dns_root
  | Category.atlas_connected => c.atlas_connected
  | Category.invalid_roa => c.invalid_roa
  | Category.total_roa => c.total_roa
  | Category.dfz => c.dfz

/-- Replace one category's reason count. -/
def setCount (c : ReasonCounts) : Category → ℕ → ReasonCounts
  | Category.origins, n => { c with origins := n }
  | Category.prefixes, n => { c with prefixes := n }
  | Category.dns_root, n => { c with dns_root := n }
  | Category.atlas_connected, n => { c with atlas_connected := n }
  | Category.invalid_roa, n => { c with invalid_roa := n }
  | Category.total_roa, n => { c with total_roa := n }
  | Category.dfz, n => { c with dfz := n }

/-- The categories in dict iteration order. -/
def categories : List Category :=
  [Category.origins, Category.prefixes, Category.dns_root, Category.atlas_connected,
    Category.invalid_roa, Category.total_roa, Category.dfz]

/-- Lines 455-457 of `main.py`:
`weighted_reasons += len(reasons) * weighting.get(metric)` over the
categories in dict order. -/
def weightedScore (c : ReasonCounts) : ℚ :=
  categories.foldl (fun acc cat => acc + (count c cat : ℚ) * weight cat) 0

/-- Closed form of the weighted score. -/
theorem weightedScore_eq (c : ReasonCounts) :
    weightedScore c = (c.origins : ℚ) * (1/10) + (c.prefixes : ℚ) * (2/10)
      + (c.dns_root : ℚ) * 10 + (c.atlas_connected : ℚ) * 1 + (c.invalid_roa : ℚ) * 1
      + (c.total_roa : ℚ) * 5 + (c.dfz : ℚ) * 1 := by
  simp [weightedScore, categories, count, weight]

/-- An `if/elif` chain as a first-match lookup: the result attached to
the first threshold the score strictly exceeds, else the default 0. -/
def ladder : List (ℚ × ℕ) → ℚ → ℕ
  | [], _ => 0
  | (t, k) :: rest, w => if t < w then k else ladder rest w

/-- The thresholds of lines 460-483 of `main.py` in source order, paired
with the ladder position of their tier (11 = top, matching the order of
the `elif` chain; the final `else` is the default 0 of `ladder`). -/
def tierPairs : List (ℚ × ℕ) :=
  [(200, 11), (100, 10), (60, 9), (50, 8), (40, 7), (30, 6), (20, 5), (15, 4),
    (10, 3), (5, 2), (0, 1)]

/-- Lines 460-483 of `main.py`: the position on the 12-tier ladder chosen
by the `if/elif` chain, 0 being the baseline tier. -/
def tierIndex (w : ℚ) : ℕ := ladder tierPairs w

/-- The 12 status strings of lines 460-483, baseline tier first. -/
def tierLabels : List String :=
  ["The Internet is fucked no more than usual",
    "The Internet is just a bit fucked",
    "The Internet is partially fucked",
    "The Internet is somewhat fucked",
    "The Internet is pretty fucked",
    "The Internet is quite fucked",
    "The Internet is rather fucked",
    "The Internet is really fucked",
    "The Internet is totally fucked",
    "The Internet is utterly fucked",
    "The Internet is completely fucked",
    "The Internet is totally, utterly, and completely fucked"]

/-- The status classification of lines 460-483 of `main.py`. -/
def statusOf (w : ℚ) : String := tierLabels.getD (tierIndex w) ""

/-- The scenario of C2: 3 reasons in `origins`, 1 in `dns_root`. -/
def c2_counts : ReasonCounts := ⟨3, 0, 1, 0, 0, 0, 0⟩

/-- C2 (counterexample): the cycle with 3 origins reasons and 1 dns_root
reason scores `3*0.1 + 1*10 = 10.3` as claimed, but because `10.3 > 10`
the strict-greater ladder selects the ">10" tier label
("The Internet is somewhat fucked"), not the ">5" tier label
("The Internet is partially fucked") the claim requires. -/
theorem c2_weighting_tier_counterexample :
    weightedScore c2_counts = 103/10
      ∧ statusOf (weightedScore c2_counts) ≠ "The Internet is partially fucked" := by
  have hs : weightedScore c2_counts = 103/10 := by
    rw [weightedScore_eq]
    norm_num [c2_counts]
  refine ⟨hs, ?_⟩
  rw [hs]
  have hi : tierIndex (103/10) = 3 := by
    norm_num [tierIndex, tierPairs, ladder]
  rw [statusOf, hi]
  decide

/-- C2 (amended): the scenario scores 10.3 and the classifier returns the
">10" tier label "The Internet is somewhat fucked" (first strictly
exceeded threshold wins), not the ">5" tier label. -/
theorem c2_weighting_tier :
    weightedScore c2_counts = 103/10
      ∧ statusOf (weightedScore c2_counts) = "The Internet is somewhat fucked" := by
  have hs : weightedScore c2_counts = 103/10 := by
    rw [weightedScore_eq]
    norm_num [c2_counts]
  refine ⟨hs, ?_⟩
  rw [hs]
  have hi : tierIndex (103/10) = 3 := by
    norm_num [tierIndex, tierPairs, ladder]
  rw [statusOf, hi]
  decide

/-- A first-match ladder never exceeds a bound dominating all its attached values. -/
theorem ladder_le {l : List (ℚ × ℕ)} {k : ℕ} (hk : ∀ p ∈ l, p.2 ≤ k) (w : ℚ) :
    ladder l w ≤ k := by
  induction l with
  | nil => simp [ladder]
  | cons a rest ih =>
      rcases a with ⟨t, v⟩
      rw [ladder]
      split_ifs
      · exact hk (t, v) (List.mem_cons_self _ _)
      · exact ih fun p hp => hk p (List.mem_cons_of_mem _ hp)

/-- A first-match ladder with weakly decreasing values is monotone in the
score. -/
theorem ladder_mono {l : List (ℚ × ℕ)} (hp : l.Pairwise (fun p q => q.2 ≤ p.2))
    {w1 w2 : ℚ} (h : w1 ≤ w2) : ladder l w1 ≤ ladder l w2 := by
  induction l with
  | nil => simp [ladder]
  | cons a rest ih =>
      rcases a with ⟨t, v⟩
      rw [List.pairwise_cons] at hp
      rw [ladder, ladder]
      by_cases h1 : t < w1
      · rw [if_pos h1, if_pos (lt_of_lt_of_le h1 h)]
      · rw [if_neg h1]
        by_cases h2 : t < w2
        · rw [if_pos h2]
          exact ladder_le (fun p hmem => hp.1 p hmem) w1
        · rw [if_neg h2]
          exact ih hp.2

/-- A larger weighted score never sits on a strictly lower ladder tier. -/
theorem tierIndex_mono {w1 w2 : ℚ} (h : w1 ≤ w2) : tierIndex w1 ≤ tierIndex w2 :=
  ladder_mono (by decide) h

/-- C6: with the (non-negative) default weights, increasing any single
category's reason count never decreases the weighted score and never
moves the classified status to a lower tier of the 12-tier ladder. -/
theorem c6_score_and_tier_monotone (c : ReasonCounts) (cat : Category) (n : ℕ)
    (h : count c cat ≤ n) :
    weightedScore c ≤ weightedScore (setCount c cat n)
      ∧ tierIndex (weightedScore c) ≤ tierIndex (weightedScore (setCount c cat n)) := by
  have hs : weightedScore c ≤ weightedScore (setCount c cat n) := by
    have hc : ((count c cat : ℕ) : ℚ) ≤ (n : ℚ) := by exact_mod_cast h
    cases cat <;>
      (simp only [count] at hc; simp only [weightedScore_eq, setCount]; linarith)
  exact ⟨hs, tierIndex_mono hs⟩

/-- Witness for C6 at a concrete input: raising `dns_root` from 0 to 2. -/
theorem c6_witness :
    count ⟨0, 0, 0, 0, 0, 0, 0⟩ Category.dns_root ≤ 2
      ∧ (weightedScore ⟨0, 0, 0, 0, 0, 0, 0⟩
            ≤ weightedScore (setCount ⟨0, 0, 0, 0, 0, 0, 0⟩ Category.dns_root 2)
          ∧ tierIndex (weightedScore ⟨0, 0, 0, 0, 0, 0, 0⟩)
            ≤ tierIndex (weightedScore (setCount ⟨0, 0, 0, 0, 0, 0, 0⟩ Category.dns_root 2))) :=
  ⟨by decide, c6_score_and_tier_monotone ⟨0, 0, 0, 0, 0, 0, 0⟩ Category.dns_root 2 (by decide)⟩

/-- C1: the claimed window bound `len = min(N, max_history)` fails for the
RPKI total-ROA store.  Recording 25 cycles of a single repository "repo"
(value 1 each cycle) into an initially empty store leaves a window of
length 25, because the eviction test compares the DICT size (1) with
`max_history` (24); the claim requires length `min 25 24 = 24`. -/
theorem c1_rpki_window_bound_violated :
    lookupKey ((List.replicate 25 ()).foldl
        (fun h _ => (check_rpki_totals [("repo", 1)] h).1) ([] : HistStore String)) "repo"
      = some (List.replicate 25 1)
    ∧ (List.replicate 25 (1 : ℕ)).length = 25
    ∧ min 25 max_history = 24 := by
  decide

end HowFucked
